import Mathlib

/-!
# go-aws-job: the AWS service façade and its driver

A shallow embedding of `internal/awswrapper/client.go` and `main.go`.

* Go strings and byte slices are lists of bytes (`Nat` values below 256).
* Go pointers are `Option` values (`none` is `nil`).
* The SDK clients are collaborators: a call is recorded in a trace and its
  error result is chosen by an arbitrary `Behaviour`, which may depend on
  everything that was called before. A call is taken to return; a call that
  never returns (a panic inside the SDK, a hang) is outside the embedding.
* `encoding/json` and `unicode/utf8` belong to the Go standard library, not to
  the repository; the parts `json.Marshal` runs for a pointer to a struct with
  one string field are embedded from the library, byte for byte.
* The repository contains no reader for its payloads; the reader of the
  round-trip property follows the spec and RFC 8259.
-/

namespace AwsJob

/-! ## Strings and UTF-8 (`unicode/utf8`) -/

/-- A Go `string` (or `[]byte`): a sequence of bytes. -/
abbrev GoString := List Nat

/-- The constant `utf8.RuneError`, U+FFFD. -/
def RuneError : Nat := 0xFFFD

/-- The constant `utf8.RuneSelf`: bytes below it are single-byte runes. -/
def RuneSelf : Nat := 0x80

/-- The function `utf8.AppendRune`: the UTF-8 encoding of a rune; surrogates
and values above U+10FFFF are written as U+FFFD. -/
def encodeRune (r : Nat) : List Nat :=
  if r ≤ 0x7F then [r]
  else if r ≤ 0x7FF then [0xC0 + r / 64, 0x80 + r % 64]
  else if r > 0x10FFFF ∨ (0xD800 ≤ r ∧ r ≤ 0xDFFF) then [0xEF, 0xBF, 0xBD]
  else if r ≤ 0xFFFF then [0xE0 + r / 4096, 0x80 + r / 64 % 64, 0x80 + r % 64]
  else [0xF0 + r / 262144, 0x80 + r / 4096 % 64, 0x80 + r / 64 % 64, 0x80 + r % 64]

/-- The bytes of a Go string literal: the UTF-8 encoding of its characters. -/
def goString (s : String) : GoString :=
  s.toList.flatMap (fun c => encodeRune c.toNat)

/-- The table `utf8.first` with `utf8.acceptRanges`: for a leading byte of a
multi-byte sequence, the sequence length and the range the second byte must
lie in; `none` for a byte that cannot lead (`xx`). -/
def firstInfo (s0 : Nat) : Option (Nat × Nat × Nat) :=
  if s0 < 0xC2 then none
  else if s0 ≤ 0xDF then some (2, 0x80, 0xBF)
  else if s0 = 0xE0 then some (3, 0xA0, 0xBF)
  else if s0 ≤ 0xEC then some (3, 0x80, 0xBF)
  else if s0 = 0xED then some (3, 0x80, 0x9F)
  else if s0 ≤ 0xEF then some (3, 0x80, 0xBF)
  else if s0 = 0xF0 then some (4, 0x90, 0xBF)
  else if s0 ≤ 0xF3 then some (4, 0x80, 0xBF)
  else if s0 = 0xF4 then some (4, 0x80, 0x8F)
  else none

/-- The function `utf8.DecodeRuneInString`: the first rune of `s` and its
width in bytes; `(RuneError, 1)` when `s` does not start with a valid
encoding, `(RuneError, 0)` when `s` is empty. -/
def decodeRune : List Nat → Nat × Nat
  | [] => (RuneError, 0)
  | s0 :: t =>
    if s0 < RuneSelf then (s0, 1)
    else
      match firstInfo s0 with
      | none => (RuneError, 1)
      | some (sz, lo, hi) =>
        match t with
        | [] => (RuneError, 1)
        | s1 :: t1 =>
          if s1 < lo ∨ hi < s1 then (RuneError, 1)
          else if sz ≤ 2 then (s0 % 32 * 64 + s1 % 64, 2)
          else
            match t1 with
            | [] => (RuneError, 1)
            | s2 :: t2 =>
              if s2 < 0x80 ∨ 0xBF < s2 then (RuneError, 1)
              else if sz ≤ 3 then (s0 % 16 * 4096 + s1 % 64 * 64 + s2 % 64, 3)
              else
                match t2 with
                | [] => (RuneError, 1)
                | s3 :: _ =>
                  if s3 < 0x80 ∨ 0xBF < s3 then (RuneError, 1)
                  else (s0 % 8 * 262144 + s1 % 64 * 4096 + s2 % 64 * 64 + s3 % 64, 4)

/-- The loop of `utf8.ValidString`, with the remaining length as fuel: no
position of the string decodes to `(RuneError, 1)`. -/
def validStringLoop : Nat → List Nat → Bool
  | 0, s => s.isEmpty
  | _ + 1, [] => true
  | fuel + 1, s0 :: t =>
    if s0 < RuneSelf then validStringLoop fuel t
    else
      let d := decodeRune (s0 :: t)
      if d.1 = RuneError ∧ d.2 = 1 then false
      else validStringLoop fuel (t.drop (d.2 - 1))

/-- The function `utf8.ValidString`: the string is well-formed UTF-8. -/
def utf8ValidString (s : GoString) : Bool :=
  validStringLoop s.length s

/-! ## JSON encoding (`encoding/json`) -/

/-- The digits `"0123456789abcdef"` the encoder indexes for `\u00XX`. -/
def hexDigit (n : Nat) : Nat :=
  if n < 10 then 0x30 + n else 0x61 + (n - 10)

/-- The table `htmlSafeSet`: the ASCII bytes `json.Marshal` copies unescaped.
Everything from space up to DEL is safe apart from the quote, the backslash
and the three HTML characters `<`, `>`, `&`. -/
def htmlSafe (b : Nat) : Bool :=
  0x20 ≤ b && b < 0x80 && b != 0x22 && b != 0x5C && b != 0x3C && b != 0x3E && b != 0x26

/-- The escape `appendString` writes for an ASCII byte outside `htmlSafeSet`
(the short forms for backspace and form feed are those of Go 1.22 and later;
earlier versions write `\u0008` and `\u000c`, which a reader decodes to the
same bytes). -/
def escapeByte (b : Nat) : List Nat :=
  if b = 0x5C ∨ b = 0x22 then [0x5C, b]
  else if b = 0x08 then [0x5C, 0x62]
  else if b = 0x0C then [0x5C, 0x66]
  else if b = 0x0A then [0x5C, 0x6E]
  else if b = 0x0D then [0x5C, 0x72]
  else if b = 0x09 then [0x5C, 0x74]
  else [0x5C, 0x75, 0x30, 0x30, hexDigit (b / 16), hexDigit (b % 16)]

/-- The loop of `appendString` (with `escapeHTML` set, as `json.Marshal`
does), with the remaining length as fuel: the characters between the quotes
of the JSON string for `src`. A byte that starts no well-formed sequence is
replaced by U+FFFD, written as its three bytes (the encoder before the one
built on `encoding/json/v2` wrote the six characters of the escape instead;
both read back as U+FFFD, and no well-formed string reaches this branch). -/
def appendStringLoop : Nat → List Nat → List Nat
  | 0, _ => []
  | _ + 1, [] => []
  | fuel + 1, b :: t =>
    if b < RuneSelf then
      if htmlSafe b then b :: appendStringLoop fuel t
      else escapeByte b ++ appendStringLoop fuel t
    else
      let d := decodeRune (b :: t)
      if d.1 = RuneError ∧ d.2 = 1 then
        encodeRune RuneError ++ appendStringLoop fuel t
      else if d.1 = 0x2028 ∨ d.1 = 0x2029 then
        [0x5C, 0x75, 0x32, 0x30, 0x32, hexDigit (d.1 % 16)]
          ++ appendStringLoop fuel (t.drop (d.2 - 1))
      else
        (b :: t).take d.2 ++ appendStringLoop fuel (t.drop (d.2 - 1))

/-- The function `appendString` of `encoding/json`: the JSON string literal
for a Go string, quotes included. -/
def appendString (src : GoString) : List Nat :=
  0x22 :: (appendStringLoop src.length src ++ [0x22])

/-- The Go `error` values that occur: the two kinds `json.Marshal` returns
and the failures of the collaborators, which the façade never inspects. -/
inductive GoError where
  | unsupportedType
  | unsupportedValue
  | collaborator (code : Nat)
  deriving DecidableEq, Repr

/-- What `json.Marshal` sees in a struct field by reflection: a string, or a
value of a kind it has no encoding for (a channel, a function, a complex
number). -/
inductive FieldValue where
  | string (s : GoString)
  | unsupported
  deriving DecidableEq, Repr

/-- A struct field with its `json` tag: the key and the `omitempty` option. -/
structure StructField where
  key : GoString
  omitEmpty : Bool
  value : FieldValue
  deriving DecidableEq, Repr

/-- The argument of `json.Marshal` in this repository: a pointer to a struct,
possibly nil. -/
inductive GoValue where
  | nilPointer
  | struct (fields : List StructField)
  deriving DecidableEq, Repr

/-- One struct field as the encoder writes it: nothing for an `omitempty`
field holding the empty string, otherwise the quoted key, a colon and the
value; an error for a field of a kind without encoding. -/
def encodeField (f : StructField) : Option (List Nat) × Option GoError :=
  match f.value with
  | .unsupported => (none, some .unsupportedType)
  | .string s =>
    if f.omitEmpty ∧ s.length = 0 then (none, none)
    else (some (appendString f.key ++ 0x3A :: appendString s), none)

/-- The members of a struct in declaration order, omitted fields left out;
the first error stops the encoding. -/
def encodeFields : List StructField → List (List Nat) × Option GoError
  | [] => ([], none)
  | f :: fs =>
    match encodeField f with
    | (_, some e) => ([], some e)
    | (m, none) =>
      match encodeFields fs with
      | (_, some e) => ([], some e)
      | (ms, none) =>
        match m with
        | none => (ms, none)
        | some x => (x :: ms, none)

/-- The function `json.Marshal` on the values this repository passes to it,
with Go's pair of results: `null` for a nil pointer, for a struct its members
between braces separated by commas, and no bytes with the error when a field
cannot be encoded. -/
def jsonMarshal : GoValue → List Nat × Option GoError
  | .nilPointer => (goString "null", none)
  | .struct fields =>
    match encodeFields fields with
    | (_, some e) => ([], some e)
    | (ms, none) => (0x7B :: ([0x2C].intercalate ms ++ [0x7D]), none)

/-! ## A reader for the one-field payload -/

/-- The value of a hexadecimal digit. -/
def hexValue (c : Nat) : Option Nat :=
  if 0x30 ≤ c ∧ c ≤ 0x39 then some (c - 0x30)
  else if 0x61 ≤ c ∧ c ≤ 0x66 then some (c - 0x61 + 10)
  else if 0x41 ≤ c ∧ c ≤ 0x46 then some (c - 0x41 + 10)
  else none

/-- The byte a two-character escape of RFC 8259 stands for. -/
def simpleEscape (e : Nat) : Option Nat :=
  if e = 0x22 then some 0x22
  else if e = 0x5C then some 0x5C
  else if e = 0x2F then some 0x2F
  else if e = 0x62 then some 0x08
  else if e = 0x66 then some 0x0C
  else if e = 0x6E then some 0x0A
  else if e = 0x72 then some 0x0D
  else if e = 0x74 then some 0x09
  else none

/-- Put decoded bytes in front of the result of reading the rest. -/
def prepend (bs : List Nat) (r : Option (GoString × List Nat)) :
    Option (GoString × List Nat) :=
  match r with
  | none => none
  | some (s, rest) => some (bs ++ s, rest)

/-- Where the reader is inside a JSON string: between characters, after a
backslash, or inside the four digits of a `\u` escape (`acc` is the value of
the digits read, `more` the number of digits still to come after the next
one). `pend` is a high surrogate that waits for its low half. -/
inductive ReadState where
  | text (pend : Option Nat)
  | escape (pend : Option Nat)
  | hex (pend : Option Nat) (acc : Nat) (more : Nat)
  deriving DecidableEq, Repr

/-- What an unpaired high surrogate decodes to: U+FFFD. -/
def flush : Option Nat → List Nat
  | none => []
  | some _ => encodeRune RuneError

/-- Modelled from the spec: the "compatible reader" of the round-trip
property is not part of the repository. This is the string production of
RFC 8259, read after the opening quote: the decoded bytes and the input left
after the closing quote. Escapes are undone, a `\u` escape yields the UTF-8
encoding of its code point, a surrogate pair yields one code point and an
unpaired surrogate yields U+FFFD. Unescaped control characters are
rejected. -/
def readStringBody : ReadState → List Nat → Option (GoString × List Nat)
  | _, [] => none
  | .text pend, b :: t =>
    if b = 0x22 then some (flush pend, t)
    else if b = 0x5C then readStringBody (.escape pend) t
    else if b < 0x20 then none
    else prepend (flush pend ++ [b]) (readStringBody (.text none) t)
  | .escape pend, e :: t =>
    if e = 0x75 then readStringBody (.hex pend 0 3) t
    else
      match simpleEscape e with
      | none => none
      | some c => prepend (flush pend ++ [c]) (readStringBody (.text none) t)
  | .hex pend acc (more + 1), h :: t =>
    match hexValue h with
    | none => none
    | some v => readStringBody (.hex pend (acc * 16 + v) more) t
  | .hex pend acc 0, h :: t =>
    match hexValue h with
    | none => none
    | some v =>
      let r := acc * 16 + v
      if 0xDC00 ≤ r ∧ r < 0xE000 then
        match pend with
        | some hi =>
          prepend (encodeRune (0x10000 + (hi - 0xD800) * 1024 + (r - 0xDC00)))
            (readStringBody (.text none) t)
        | none => prepend (encodeRune RuneError) (readStringBody (.text none) t)
      else if 0xD800 ≤ r ∧ r < 0xDC00 then
        prepend (flush pend) (readStringBody (.text (some r)) t)
      else prepend (flush pend ++ encodeRune r) (readStringBody (.text none) t)

/-- Modelled from the spec: the "compatible reader" for the one-field shape,
which the repository does not contain. It accepts a JSON object that is
empty, giving the zero value of the field, or has the single member `name`
with a string value, and returns the value of the `name` field. -/
def readName (data : List Nat) : Option GoString :=
  if data = [0x7B, 0x7D] then some []
  else
    match data with
    | b0 :: b1 :: t =>
      if b0 = 0x7B ∧ b1 = 0x22 then
        match readStringBody (.text none) t with
        | some (key, c :: q :: t1) =>
          if key = goString "name" ∧ c = 0x3A ∧ q = 0x22 then
            match readStringBody (.text none) t1 with
            | some (v, rest) => if rest = [0x7D] then some v else none
            | none => none
          else none
        | _ => none
      else none
    | _ => none

/-! ## The SDK types the façade uses -/

/-- A `context.Context`; the façade only passes it on. -/
structure Context where
  id : Nat
  deriving DecidableEq, Repr

/-- The value `context.Background()`. -/
def Context.Background : Context := ⟨0⟩

/-- An `aws.Config`: whatever configuration discovery resolved. -/
structure Config where
  id : Nat
  deriving DecidableEq, Repr

/-- The function `aws.String`: a pointer to a copy of the string. -/
def aws.String (s : GoString) : Option GoString := some s

/-- The function `aws.Bool`: a pointer to a copy of the boolean. -/
def aws.Bool (b : Bool) : Option Bool := some b

/-- A `kinesis.Client`, holding the configuration it was made from. -/
structure kinesis.Client where
  options : Config
  deriving DecidableEq, Repr

/-- A `dynamodb.Client`, holding the configuration it was made from. -/
structure dynamodb.Client where
  options : Config
  deriving DecidableEq, Repr

/-- An `s3.Client`, holding the configuration it was made from. -/
structure s3.Client where
  options : Config
  deriving DecidableEq, Repr

/-- An `sqs.Client`, holding the configuration it was made from. -/
structure sqs.Client where
  options : Config
  deriving DecidableEq, Repr

/-- An `sns.Client`, holding the configuration it was made from. -/
structure sns.Client where
  options : Config
  deriving DecidableEq, Repr

/-- The function `kinesis.NewFromConfig`: always a fresh, non-nil client. -/
def kinesis.NewFromConfig (conf : Config) : Option kinesis.Client := some ⟨conf⟩

/-- The function `dynamodb.NewFromConfig`: always a fresh, non-nil client. -/
def dynamodb.NewFromConfig (conf : Config) : Option dynamodb.Client := some ⟨conf⟩

/-- The function `s3.NewFromConfig`: always a fresh, non-nil client. -/
def s3.NewFromConfig (conf : Config) : Option s3.Client := some ⟨conf⟩

/-- The function `sqs.NewFromConfig`: always a fresh, non-nil client. -/
def sqs.NewFromConfig (conf : Config) : Option sqs.Client := some ⟨conf⟩

/-- The function `sns.NewFromConfig`: always a fresh, non-nil client. -/
def sns.NewFromConfig (conf : Config) : Option sns.Client := some ⟨conf⟩

/-- The fields of `kinesis.PutRecordInput`; a field the code does not set
keeps its zero value. -/
structure kinesis.PutRecordInput where
  Data : List Nat := []
  PartitionKey : Option GoString := none
  ExplicitHashKey : Option GoString := none
  SequenceNumberForOrdering : Option GoString := none
  StreamARN : Option GoString := none
  StreamName : Option GoString := none
  deriving DecidableEq, Repr

/-- The fields of `kinesis.ListShardsInput`. -/
structure kinesis.ListShardsInput where
  ExclusiveStartShardId : Option GoString := none
  MaxResults : Option Int := none
  NextToken : Option GoString := none
  StreamARN : Option GoString := none
  StreamName : Option GoString := none
  deriving DecidableEq, Repr

/-- The interface `dyntypes.AttributeValue` with the members for scalars. -/
inductive dyntypes.AttributeValue where
  | AttributeValueMemberS (Value : GoString)
  | AttributeValueMemberN (Value : GoString)
  | AttributeValueMemberB (Value : List Nat)
  | AttributeValueMemberBOOL (Value : Bool)
  | AttributeValueMemberNULL (Value : Bool)
  deriving DecidableEq, Repr

/-- The string type `dyntypes.ReturnConsumedCapacity`. -/
abbrev dyntypes.ReturnConsumedCapacity := GoString

/-- The SDK constant `ReturnConsumedCapacityTotal`. -/
def dyntypes.ReturnConsumedCapacityTotal : dyntypes.ReturnConsumedCapacity :=
  goString "TOTAL"

/-- The fields of `dynamodb.GetItemInput`; a Go map literal is the list of
its entries in the order written. -/
structure dynamodb.GetItemInput where
  Key : List (GoString × dyntypes.AttributeValue) := []
  TableName : Option GoString := none
  AttributesToGet : List GoString := []
  ConsistentRead : Option Bool := none
  ExpressionAttributeNames : List (GoString × GoString) := []
  ProjectionExpression : Option GoString := none
  ReturnConsumedCapacity : dyntypes.ReturnConsumedCapacity := []
  deriving DecidableEq, Repr

/-- The fields of `dynamodb.QueryInput`. -/
structure dynamodb.QueryInput where
  TableName : Option GoString := none
  ConsistentRead : Option Bool := none
  ExclusiveStartKey : List (GoString × dyntypes.AttributeValue) := []
  ExpressionAttributeNames : List (GoString × GoString) := []
  ExpressionAttributeValues : List (GoString × dyntypes.AttributeValue) := []
  FilterExpression : Option GoString := none
  IndexName : Option GoString := none
  KeyConditionExpression : Option GoString := none
  Limit : Option Int := none
  ProjectionExpression : Option GoString := none
  ReturnConsumedCapacity : dyntypes.ReturnConsumedCapacity := []
  ScanIndexForward : Option Bool := none
  deriving DecidableEq, Repr

/-- The fields of `s3.PutObjectInput`; `Body` is the reader, given by the
bytes it yields, `none` when nil. -/
structure s3.PutObjectInput where
  Bucket : Option GoString := none
  Key : Option GoString := none
  ACL : GoString := []
  Body : Option (List Nat) := none
  CacheControl : Option GoString := none
  ContentDisposition : Option GoString := none
  ContentEncoding : Option GoString := none
  ContentLanguage : Option GoString := none
  ContentLength : Option Int := none
  ContentMD5 : Option GoString := none
  ContentType : Option GoString := none
  Metadata : List (GoString × GoString) := []
  ServerSideEncryption : GoString := []
  StorageClass : GoString := []
  Tagging : Option GoString := none
  deriving DecidableEq, Repr

/-- The string type `sqstypes.QueueAttributeName`. -/
abbrev sqstypes.QueueAttributeName := GoString

/-- The SDK constant `QueueAttributeNameAll`. -/
def sqstypes.QueueAttributeNameAll : sqstypes.QueueAttributeName := goString "All"

/-- The fields of `sqs.ReceiveMessageInput`. -/
structure sqs.ReceiveMessageInput where
  QueueUrl : Option GoString := none
  AttributeNames : List sqstypes.QueueAttributeName := []
  MaxNumberOfMessages : Int := 0
  MessageAttributeNames : List GoString := []
  ReceiveRequestAttemptId : Option GoString := none
  VisibilityTimeout : Int := 0
  WaitTimeSeconds : Int := 0
  deriving DecidableEq, Repr

/-- The fields of `sns.PublishInput`. -/
structure sns.PublishInput where
  Message : Option GoString := none
  MessageDeduplicationId : Option GoString := none
  MessageGroupId : Option GoString := none
  MessageStructure : Option GoString := none
  PhoneNumber : Option GoString := none
  Subject : Option GoString := none
  TargetArn : Option GoString := none
  TopicArn : Option GoString := none
  deriving DecidableEq, Repr

/-! ## The collaborators -/

/-- One call of a client method: the context, the client handle the method
was called on and the request it was given. -/
inductive Call where
  | PutRecord (ctx : Context) (c : Option kinesis.Client) (input : kinesis.PutRecordInput)
  | ListShards (ctx : Context) (c : Option kinesis.Client) (input : kinesis.ListShardsInput)
  | GetItem (ctx : Context) (c : Option dynamodb.Client) (input : dynamodb.GetItemInput)
  | Query (ctx : Context) (c : Option dynamodb.Client) (input : dynamodb.QueryInput)
  | PutObject (ctx : Context) (c : Option s3.Client) (input : s3.PutObjectInput)
  | ReceiveMessage (ctx : Context) (c : Option sqs.Client) (input : sqs.ReceiveMessageInput)
  | Publish (ctx : Context) (c : Option sns.Client) (input : sns.PublishInput)
  deriving DecidableEq, Repr

/-- The behaviour of the collaborator clients: the error a call returns
(`none` is a nil error), given the calls made before it. -/
abbrev Behaviour := List Call → Call → Option GoError

/-- Make one collaborator call: its error is the one the behaviour gives and
the call is added to the trace. The output value of the call is dropped, as
every wrapper assigns it to `_`. The handle is passed as it is, nil or not:
Go enters the method of a nil handle too. -/
def invoke (β : Behaviour) (c : Call) (trace : List Call) : Option GoError × List Call :=
  (β trace c, trace ++ [c])

/-! ## `internal/awswrapper/client.go` -/

/-- The struct `AWSWrapper`. -/
structure AWSWrapper where
  kinesisStreamName : Option GoString
  dynamodbTableName : GoString
  bucketName : Option GoString
  queueUrl : Option GoString
  kinesisClient : Option kinesis.Client
  dynamodbClient : Option dynamodb.Client
  s3client : Option s3.Client
  sqs : Option sqs.Client
  sns : Option sns.Client
  deriving DecidableEq, Repr

/-- The constructor `New`; `LoadDefaultConfig` is the discovery of the
configuration, with Go's pair of results. -/
def New (LoadDefaultConfig : Context → Config × Option GoError) (ctx : Context)
    (streamName tableName bucketName queueUrl : GoString) :
    Option AWSWrapper × Option GoError :=
  match LoadDefaultConfig ctx with
  | (_, some err) => (none, some err)
  | (conf, none) =>
    let client : AWSWrapper :=
      { kinesisStreamName := aws.String streamName
        dynamodbTableName := tableName
        bucketName := some bucketName
        queueUrl := aws.String queueUrl
        kinesisClient := kinesis.NewFromConfig conf
        dynamodbClient := dynamodb.NewFromConfig conf
        s3client := s3.NewFromConfig conf
        sqs := sqs.NewFromConfig conf
        sns := sns.NewFromConfig conf }
    (some client, none)

/-- The struct `KinesisRecord`, tagged `json:"name,omitempty"`. -/
structure KinesisRecord where
  Name : GoString
  deriving DecidableEq, Repr

/-- The struct `S3Object`, tagged `json:"name"`. -/
structure S3Object where
  Name : GoString
  deriving DecidableEq, Repr

/-- What `json.Marshal` is given for a `*KinesisRecord`. -/
def KinesisRecord.reflect : Option KinesisRecord → GoValue
  | none => .nilPointer
  | some r => .struct [{ key := goString "name", omitEmpty := true, value := .string r.Name }]

/-- What `json.Marshal` is given for a `*S3Object`. -/
def S3Object.reflect : Option S3Object → GoValue
  | none => .nilPointer
  | some o => .struct [{ key := goString "name", omitEmpty := false, value := .string o.Name }]

/-- The method `PutKinesisRecordWrapper`: the returned error and the trace
of collaborator calls after it. -/
def PutKinesisRecordWrapper (β : Behaviour) (a : AWSWrapper) (ctx : Context)
    (record : Option KinesisRecord) (trace : List Call) : Option GoError × List Call :=
  match jsonMarshal (KinesisRecord.reflect record) with
  | (_, some err) => (some err, trace)
  | (data, none) =>
    let input : kinesis.PutRecordInput :=
      { Data := data
        PartitionKey := aws.String (goString "1")
        StreamName := a.kinesisStreamName }
    invoke β (.PutRecord ctx a.kinesisClient input) trace

/-- The method `ListShardsWrapper`. -/
def ListShardsWrapper (β : Behaviour) (a : AWSWrapper) (ctx : Context)
    (streamName : GoString) (trace : List Call) : Option GoError × List Call :=
  let input : kinesis.ListShardsInput := { StreamName := aws.String streamName }
  invoke β (.ListShards ctx a.kinesisClient input) trace

/-- The method `GetItemWrapper`. -/
def GetItemWrapper (β : Behaviour) (a : AWSWrapper) (ctx : Context)
    (key : GoString) (trace : List Call) : Option GoError × List Call :=
  let input : dynamodb.GetItemInput :=
    { Key := [(goString "PK", .AttributeValueMemberS key)]
      TableName := aws.String a.dynamodbTableName }
  invoke β (.GetItem ctx a.dynamodbClient input) trace

/-- The method `QueryTableWrapper`. -/
def QueryTableWrapper (β : Behaviour) (a : AWSWrapper) (ctx : Context)
    (key : GoString) (pfx : GoString) (trace : List Call) : Option GoError × List Call :=
  let input : dynamodb.QueryInput :=
    { TableName := aws.String a.dynamodbTableName
      ConsistentRead := aws.Bool true
      ExpressionAttributeNames :=
        [(goString "pk", goString "SK"), (goString "sk", goString "GSI1SK")]
      ExpressionAttributeValues :=
        [(goString ":pk", .AttributeValueMemberS key),
         (goString ":sk", .AttributeValueMemberS pfx)]
      IndexName := aws.String (goString "GSI1")
      KeyConditionExpression := aws.String (goString "pk = :pk AND begins_with(sk, :sk)")
      ReturnConsumedCapacity := dyntypes.ReturnConsumedCapacityTotal }
  invoke β (.Query ctx a.dynamodbClient input) trace

/-- The function `createS3PutObjectInput`. -/
def createS3PutObjectInput (bucket : Option GoString) (key : GoString)
    (body : Option (List Nat)) : s3.PutObjectInput :=
  { Bucket := bucket
    Body := body
    Key := aws.String key }

/-- The method `PutObjectWrapper`; `bytes.NewReader data` is the reader
yielding `data`. -/
def PutObjectWrapper (β : Behaviour) (a : AWSWrapper) (ctx : Context)
    (key : GoString) (obj : Option S3Object) (trace : List Call) :
    Option GoError × List Call :=
  match jsonMarshal (S3Object.reflect obj) with
  | (_, some err) => (some err, trace)
  | (data, none) =>
    let input := createS3PutObjectInput a.bucketName key (some data)
    invoke β (.PutObject ctx a.s3client input) trace

/-- The method `ReceiveMessageWrapper`. -/
def ReceiveMessageWrapper (β : Behaviour) (a : AWSWrapper) (ctx : Context)
    (trace : List Call) : Option GoError × List Call :=
  let input : sqs.ReceiveMessageInput :=
    { QueueUrl := a.queueUrl
      AttributeNames := [sqstypes.QueueAttributeNameAll]
      MaxNumberOfMessages := 10
      MessageAttributeNames := [goString "ID", goString "COUNTRY"]
      VisibilityTimeout := 20
      WaitTimeSeconds := 30 }
  invoke β (.ReceiveMessage ctx a.sqs input) trace

/-- The method `PublishMessageWrapper`. -/
def PublishMessageWrapper (β : Behaviour) (a : AWSWrapper) (ctx : Context)
    (trace : List Call) : Option GoError × List Call :=
  let input : sns.PublishInput := { Message := aws.String (goString "message") }
  invoke β (.Publish ctx a.sns input) trace

/-! ## `main.go` -/

/-- The constant `streamNameEnvKey`. -/
def streamNameEnvKey : GoString := goString "KINESIS_STREAM_NAME"

/-- The constant `dynamodbTableName`. -/
def dynamodbTableName : GoString := goString "dynamodb_table"

/-- What the driver finds around it: the process environment read by
`os.Getenv`, the outcome of configuration discovery and the behaviour of the
services. -/
structure Surroundings where
  Getenv : GoString → GoString
  LoadDefaultConfig : Context → Config × Option GoError
  behaviour : Behaviour

/-- The function `main`: the collaborator calls the run makes, in order. A
nil wrapper with a nil error, which `New` never returns, would stop the run
at the first dereference, before any call. -/
def main (w : Surroundings) : List Call :=
  let streamName := w.Getenv streamNameEnvKey
  let bucketName := w.Getenv (goString "S3" ++ goString "_BUCKET")
  let queueUrl := w.Getenv (goString "SQS_URL")
  let ctx := Context.Background
  match New w.LoadDefaultConfig ctx streamName dynamodbTableName bucketName queueUrl with
  | (_, some _) => []
  | (none, none) => []
  | (some wrapper, none) =>
    match PutKinesisRecordWrapper w.behaviour wrapper ctx
        (some { Name := goString "Record Name" }) [] with
    | (some _, t1) => t1
    | (none, t1) =>
    match ListShardsWrapper w.behaviour wrapper ctx streamName t1 with
    | (some _, t2) => t2
    | (none, t2) =>
    match GetItemWrapper w.behaviour wrapper ctx (goString "item_id") t2 with
    | (some _, t3) => t3
    | (none, t3) =>
    match QueryTableWrapper w.behaviour wrapper ctx (goString "ID") (goString "PREFIX") t3 with
    | (some _, t4) => t4
    | (none, t4) =>
    match PutObjectWrapper w.behaviour wrapper ctx (goString "s3_file.json")
        (some { Name := goString "Object Name" }) t4 with
    | (some _, t5) => t5
    | (none, t5) =>
    match ReceiveMessageWrapper w.behaviour wrapper ctx t5 with
    | (some _, t6) => t6
    | (none, t6) =>
    match PublishMessageWrapper w.behaviour wrapper ctx t6 with
    | (some _, t7) => t7
    | (none, t7) => t7

/-! ## Definitions the statements use -/

/-- The seven operations of the façade. -/
inductive Operation where
  | PutRecord
  | ListShards
  | GetItem
  | QueryTable
  | PutObject
  | ReceiveMessage
  | PublishMessage
  deriving DecidableEq, Repr

/-- The operation a collaborator call belongs to. -/
def Call.operation : Call → Operation
  | .PutRecord _ _ _ => .PutRecord
  | .ListShards _ _ _ => .ListShards
  | .GetItem _ _ _ => .GetItem
  | .Query _ _ _ => .QueryTable
  | .PutObject _ _ _ => .PutObject
  | .ReceiveMessage _ _ _ => .ReceiveMessage
  | .Publish _ _ _ => .PublishMessage

/-- The order in which `main` goes through the operations. -/
def driverOrder : List Operation :=
  [.PutRecord, .ListShards, .GetItem, .QueryTable, .PutObject, .ReceiveMessage,
   .PublishMessage]

/-- The DynamoDB expression syntax for substitution: a token stands for an
entry of `ExpressionAttributeNames` exactly when it starts with `#`. -/
def isNamePlaceholder (token : GoString) : Bool :=
  token.head? = some 0x23

/-- The attribute a name token of a DynamoDB expression denotes: the entry
of `ExpressionAttributeNames` for a placeholder, the token itself for a plain
name. -/
def resolveAttributeName (names : List (GoString × GoString)) (token : GoString) :
    GoString :=
  if isNamePlaceholder token then (names.lookup token).getD token else token

/-- A façade as `New` makes it for stream "S", table "T", bucket "B" and queue
"Q" from the configuration numbered 1. -/
def scenarioWrapper : AWSWrapper :=
  { kinesisStreamName := some (goString "S")
    dynamodbTableName := goString "T"
    bucketName := some (goString "B")
    queueUrl := some (goString "Q")
    kinesisClient := some ⟨⟨1⟩⟩
    dynamodbClient := some ⟨⟨1⟩⟩
    s3client := some ⟨⟨1⟩⟩
    sqs := some ⟨⟨1⟩⟩
    sns := some ⟨⟨1⟩⟩ }

/-- Services that answer every call without error. -/
def quietBehaviour : Behaviour := fun _ _ => none

/-- Services whose `GetItem` fails with error 7 and whose other calls succeed. -/
def getItemFails : Behaviour := fun _ c =>
  match c with
  | .GetItem _ _ _ => some (.collaborator 7)
  | _ => none

/-- Surroundings with an empty environment, in which discovery yields the
configuration numbered 1 and `GetItem` fails. -/
def getItemFailsRun : Surroundings :=
  { Getenv := fun _ => []
    LoadDefaultConfig := fun _ => (⟨1⟩, none)
    behaviour := getItemFails }

/-! ## The reader undoes the encoder -/

/-- The reader copies a byte that is no quote, no backslash and no control character. -/
theorem readStringBody_plain (b : Nat) (out : List Nat) (h1 : b ≠ 0x22) (h2 : b ≠ 0x5C)
    (h3 : ¬ b < 0x20) :
    readStringBody (.text none) (b :: out) = prepend [b] (readStringBody (.text none) out) := by
  simp [readStringBody, h1, h2, h3, flush]

/-- The reader undoes the escape the encoder writes for an ASCII byte outside `htmlSafeSet`. -/
theorem readStringBody_escapeByte (b : Nat) (out : List Nat) (hb : b < 0x80)
    (hs : htmlSafe b = false) :
    readStringBody (.text none) (escapeByte b ++ out)
      = prepend [b] (readStringBody (.text none) out) := by
  interval_cases b <;> first
    | (exfalso; revert hs; decide)
    | simp [escapeByte, readStringBody, hexDigit, hexValue, simpleEscape, encodeRune, flush]

/-- The reader undoes the escape the encoder writes for U+2028 and U+2029. -/
theorem readStringBody_separator (c : Nat) (out : List Nat) (hc : c = 0x2028 ∨ c = 0x2029) :
    readStringBody (.text none) ([0x5C, 0x75, 0x32, 0x30, 0x32, hexDigit (c % 16)] ++ out)
      = prepend (encodeRune c) (readStringBody (.text none) out) := by
  rcases hc with rfl | rfl <;>
    simp [readStringBody, hexDigit, hexValue, encodeRune, flush]

/-- What the table of leading bytes holds. -/
theorem firstInfo_spec (s0 sz lo hi : Nat) (h : firstInfo s0 = some (sz, lo, hi)) :
    0x80 ≤ lo ∧ hi ≤ 0xBF ∧
    ((sz = 2 ∧ 0xC2 ≤ s0 ∧ s0 ≤ 0xDF) ∨
     (sz = 3 ∧ 0xE0 ≤ s0 ∧ s0 ≤ 0xEF ∧ (s0 = 0xE0 → 0xA0 ≤ lo) ∧ (s0 = 0xED → hi ≤ 0x9F)) ∨
     (sz = 4 ∧ 0xF0 ≤ s0 ∧ s0 ≤ 0xF4 ∧ (s0 = 0xF0 → 0x90 ≤ lo) ∧ (s0 = 0xF4 → hi ≤ 0x8F))) := by
  unfold firstInfo at h
  split_ifs at h <;> simp only [Option.some.injEq, Prod.mk.injEq, reduceCtorEq] at h <;>
    omega

/-- The shapes a well-formed multi-byte sequence can have. -/
theorem decodeRune_multibyte (s0 : Nat) (t : List Nat) (h0 : ¬ s0 < RuneSelf)
    (hv : ¬ ((decodeRune (s0 :: t)).1 = RuneError ∧ (decodeRune (s0 :: t)).2 = 1)) :
    (∃ s1 t1, t = s1 :: t1 ∧ decodeRune (s0 :: t) = (s0 % 32 * 64 + s1 % 64, 2) ∧
        0x80 ≤ s1 ∧ s1 ≤ 0xBF) ∨
    (∃ s1 s2 t2, t = s1 :: s2 :: t2 ∧
        decodeRune (s0 :: t) = (s0 % 16 * 4096 + s1 % 64 * 64 + s2 % 64, 3) ∧
        0xE0 ≤ s0 ∧ s0 ≤ 0xEF ∧ 0x80 ≤ s1 ∧ s1 ≤ 0xBF ∧ 0x80 ≤ s2 ∧ s2 ≤ 0xBF) ∨
    (∃ s1 s2 s3 t3, t = s1 :: s2 :: s3 :: t3 ∧
        decodeRune (s0 :: t)
          = (s0 % 8 * 262144 + s1 % 64 * 4096 + s2 % 64 * 64 + s3 % 64, 4) ∧
        0xF0 ≤ s0 ∧ s0 ≤ 0xF4 ∧ (s0 = 0xF0 → 0x90 ≤ s1) ∧ 0x80 ≤ s1 ∧ s1 ≤ 0xBF ∧
        0x80 ≤ s2 ∧ s2 ≤ 0xBF ∧ 0x80 ≤ s3 ∧ s3 ≤ 0xBF) := by
  cases hfi : firstInfo s0 with
  | none => simp [decodeRune, h0, hfi] at hv
  | some info =>
    obtain ⟨sz, lo, hi⟩ := info
    obtain ⟨hlo, hhi, hsz⟩ := firstInfo_spec _ _ _ _ hfi
    rcases t with _ | ⟨s1, t1⟩
    · simp [decodeRune, h0, hfi] at hv
    by_cases hr1 : s1 < lo ∨ hi < s1
    · simp [decodeRune, h0, hfi, hr1] at hv
    by_cases hsz2 : sz ≤ 2
    · left
      exact ⟨s1, t1, rfl, by simp [decodeRune, h0, hfi, hr1, hsz2], by omega, by omega⟩
    rcases t1 with _ | ⟨s2, t2⟩
    · simp [decodeRune, h0, hfi, hr1, hsz2] at hv
    by_cases hr2 : s2 < 0x80 ∨ 0xBF < s2
    · simp [decodeRune, h0, hfi, hr1, hsz2, hr2] at hv
    by_cases hsz3 : sz ≤ 3
    · right; left
      exact ⟨s1, s2, t2, rfl, by simp [decodeRune, h0, hfi, hr1, hsz2, hr2, hsz3],
        by omega, by omega, by omega, by omega, by omega, by omega⟩
    rcases t2 with _ | ⟨s3, t3⟩
    · simp [decodeRune, h0, hfi, hr1, hsz2, hr2, hsz3] at hv
    by_cases hr3 : s3 < 0x80 ∨ 0xBF < s3
    · simp [decodeRune, h0, hfi, hr1, hsz2, hr2, hsz3, hr3] at hv
    right; right
    exact ⟨s1, s2, s3, t3, rfl, by simp [decodeRune, h0, hfi, hr1, hsz2, hr2, hsz3, hr3],
      by omega, by omega, by omega, by omega, by omega, by omega, by omega, by omega,
      by omega⟩


/-- A byte of `htmlSafeSet` is no quote, no backslash and no control character. -/
theorem htmlSafe_plain (b : Nat) (h : htmlSafe b = true) :
    b ≠ 0x22 ∧ b ≠ 0x5C ∧ ¬ b < 0x20 := by
  simp [htmlSafe] at h
  omega

/-- Reading back what the encoder writes for a well-formed string gives the string. -/
theorem readStringBody_appendStringLoop (fuel : Nat) :
    ∀ (src out : List Nat), validStringLoop fuel src = true →
      readStringBody (.text none) (appendStringLoop fuel src ++ 0x22 :: out)
        = some (src, out) := by
  induction fuel with
  | zero =>
    intro src out hv
    cases src with
    | nil => simp [appendStringLoop, readStringBody, flush]
    | cons b t => simp [validStringLoop] at hv
  | succ fuel ih =>
    intro src out hv
    cases src with
    | nil => simp [appendStringLoop, readStringBody, flush]
    | cons b t =>
      by_cases hb : b < RuneSelf
      · have hvt : validStringLoop fuel t = true := by
          simpa [validStringLoop, hb] using hv
        cases hs : htmlSafe b with
        | true =>
          obtain ⟨h1, h2, h3⟩ := htmlSafe_plain b hs
          simp only [appendStringLoop, hb, hs, if_true, List.cons_append]
          rw [readStringBody_plain b _ h1 h2 h3, ih t out hvt]
          rfl
        | false =>
          have hb2 : b < 0x80 := hb
          simp only [appendStringLoop, hb, hs, if_true, Bool.false_eq_true, if_false,
            List.append_assoc]
          rw [readStringBody_escapeByte b _ hb2 hs, ih t out hvt]
          rfl
      · have hd : ¬ ((decodeRune (b :: t)).1 = RuneError ∧ (decodeRune (b :: t)).2 = 1) := by
          intro hbad
          simp [validStringLoop, hb, hbad] at hv
        have hvt : validStringLoop fuel (t.drop ((decodeRune (b :: t)).2 - 1)) = true := by
          simpa [validStringLoop, hb, hd] using hv
        have hb3 : ¬ b < 0x20 := by simp only [RuneSelf] at hb; omega
        have hb1 : b ≠ 0x22 := by simp only [RuneSelf] at hb; omega
        have hb2 : b ≠ 0x5C := by simp only [RuneSelf] at hb; omega
        simp only [appendStringLoop, hb, hd, if_false]
        rcases decodeRune_multibyte b t hb hd with
          ⟨s1, t1, rfl, hdec, l1, u1⟩ | ⟨s1, s2, t2, rfl, hdec, lb, ub, l1, u1, l2, u2⟩ |
          ⟨s1, s2, s3, t3, rfl, hdec, lb, ub, hf0, l1, u1, l2, u2, l3, u3⟩
        · rw [hdec] at hvt ⊢
          have hc : ¬ (b % 32 * 64 + s1 % 64 = 0x2028 ∨ b % 32 * 64 + s1 % 64 = 0x2029) := by
            omega
          simp only [hc, if_false, List.take, List.drop, Nat.add_one_sub_one,
            List.cons_append, List.nil_append] at hvt ⊢
          rw [readStringBody_plain b _ hb1 hb2 hb3,
            readStringBody_plain s1 _ (by omega) (by omega) (by omega), ih t1 out hvt]
          rfl
        · rw [hdec] at hvt ⊢
          simp only [List.drop, Nat.add_one_sub_one] at hvt
          by_cases hc : b % 16 * 4096 + s1 % 64 * 64 + s2 % 64 = 0x2028 ∨
              b % 16 * 4096 + s1 % 64 * 64 + s2 % 64 = 0x2029
          · simp only [hc, if_true, List.drop, Nat.add_one_sub_one, List.append_assoc]
            have henc : encodeRune (b % 16 * 4096 + s1 % 64 * 64 + s2 % 64) = [b, s1, s2] := by
              rcases hc with hc | hc
              · have e0 : b = 0xE2 := by omega
                have e1 : s1 = 0x80 := by omega
                have e2 : s2 = 0xA8 := by omega
                subst e0 e1 e2
                decide
              · have e0 : b = 0xE2 := by omega
                have e1 : s1 = 0x80 := by omega
                have e2 : s2 = 0xA9 := by omega
                subst e0 e1 e2
                decide
            rw [readStringBody_separator _ _ hc, henc, ih t2 out hvt]
            rfl
          · simp only [hc, if_false, List.take, List.drop, Nat.add_one_sub_one,
              List.cons_append, List.nil_append]
            rw [readStringBody_plain b _ hb1 hb2 hb3,
              readStringBody_plain s1 _ (by omega) (by omega) (by omega),
              readStringBody_plain s2 _ (by omega) (by omega) (by omega), ih t2 out hvt]
            rfl
        · rw [hdec] at hvt ⊢
          have hc : ¬ (b % 8 * 262144 + s1 % 64 * 4096 + s2 % 64 * 64 + s3 % 64 = 0x2028 ∨
              b % 8 * 262144 + s1 % 64 * 4096 + s2 % 64 * 64 + s3 % 64 = 0x2029) := by
            omega
          simp only [hc, if_false, List.take, List.drop, Nat.add_one_sub_one,
            List.cons_append, List.nil_append] at hvt ⊢
          rw [readStringBody_plain b _ hb1 hb2 hb3,
            readStringBody_plain s1 _ (by omega) (by omega) (by omega),
            readStringBody_plain s2 _ (by omega) (by omega) (by omega),
            readStringBody_plain s3 _ (by omega) (by omega) (by omega), ih t3 out hvt]
          rfl

/-! ## What `json.Marshal` returns for the two payloads -/

/-- The quoted key of both payloads. -/
theorem appendString_name :
    appendString (goString "name") = [0x22, 0x6E, 0x61, 0x6D, 0x65, 0x22] := by decide

/-- The bytes up to the value of the member. -/
theorem goString_open_name :
    goString "\x7b\"name\":" = [0x7B, 0x22, 0x6E, 0x61, 0x6D, 0x65, 0x22, 0x3A] := by
  decide

/-- The closing brace. -/
theorem goString_close : goString "\x7d" = [0x7D] := by decide

/-- The empty object. -/
theorem goString_empty_object : goString "\x7b\x7d" = [0x7B, 0x7D] := by decide

/-- What `json.Marshal` returns for a non-nil `*KinesisRecord`. -/
theorem jsonMarshal_KinesisRecord (r : KinesisRecord) :
    jsonMarshal (KinesisRecord.reflect (some r))
      = (if r.Name = [] then goString "\x7b\x7d"
          else goString "\x7b\"name\":" ++ appendString r.Name ++ goString "\x7d", none) := by
  by_cases h : r.Name = []
  · simp [jsonMarshal, KinesisRecord.reflect, encodeFields, encodeField, h,
      goString_empty_object, List.intercalate]
  · simp [jsonMarshal, KinesisRecord.reflect, encodeFields, encodeField, h,
      goString_open_name, goString_close, appendString_name, List.intercalate]

/-- What `json.Marshal` returns for a non-nil `*S3Object`. -/
theorem jsonMarshal_S3Object (o : S3Object) :
    jsonMarshal (S3Object.reflect (some o))
      = (goString "\x7b\"name\":" ++ appendString o.Name ++ goString "\x7d", none) := by
  simp [jsonMarshal, S3Object.reflect, encodeFields, encodeField,
      goString_open_name, goString_close, appendString_name, List.intercalate]

/-- Marshalling a record pointer never fails. -/
theorem jsonMarshal_KinesisRecord_error (record : Option KinesisRecord) :
    (jsonMarshal (KinesisRecord.reflect record)).2 = none := by
  cases record with
  | none => rfl
  | some r => rw [jsonMarshal_KinesisRecord]

/-- Marshalling an object pointer never fails. -/
theorem jsonMarshal_S3Object_error (obj : Option S3Object) :
    (jsonMarshal (S3Object.reflect obj)).2 = none := by
  cases obj with
  | none => rfl
  | some o => rw [jsonMarshal_S3Object]

/-- The wrapper always reaches the Kinesis client, with the marshalled record. -/
theorem PutKinesisRecordWrapper_eq (β : Behaviour) (a : AWSWrapper) (ctx : Context)
    (record : Option KinesisRecord) (trace : List Call) :
    PutKinesisRecordWrapper β a ctx record trace
      = invoke β (.PutRecord ctx a.kinesisClient
          { Data := (jsonMarshal (KinesisRecord.reflect record)).1
            PartitionKey := some (goString "1")
            StreamName := a.kinesisStreamName }) trace := by
  have h := jsonMarshal_KinesisRecord_error record
  unfold PutKinesisRecordWrapper
  rcases hm : jsonMarshal (KinesisRecord.reflect record) with ⟨data, err⟩
  rw [hm] at h
  simp only at h
  subst h
  rfl

/-- The wrapper always reaches the S3 client, with the marshalled object. -/
theorem PutObjectWrapper_eq (β : Behaviour) (a : AWSWrapper) (ctx : Context)
    (key : GoString) (obj : Option S3Object) (trace : List Call) :
    PutObjectWrapper β a ctx key obj trace
      = invoke β (.PutObject ctx a.s3client
          (createS3PutObjectInput a.bucketName key
            (some (jsonMarshal (S3Object.reflect obj)).1))) trace := by
  have h := jsonMarshal_S3Object_error obj
  unfold PutObjectWrapper
  rcases hm : jsonMarshal (S3Object.reflect obj) with ⟨data, err⟩
  rw [hm] at h
  simp only at h
  subst h
  rfl

/-- The reader on an object with the single member `name`. -/
theorem readName_object (name : GoString) (hv : utf8ValidString name = true) :
    readName (goString "\x7b\"name\":" ++ appendString name ++ goString "\x7d") = some name := by
  have h := readStringBody_appendStringLoop name.length name [0x7D] hv
  simp [readName, goString_open_name, goString_close, appendString, readStringBody, flush,
    prepend, h, show goString "name" = [0x6E, 0x61, 0x6D, 0x65] by decide]

/-- The JSON string written for a well-formed name is a quote followed by characters that
the reader decodes to the name, ending at the closing quote with nothing left over. -/
theorem appendString_reads_back (name : GoString) (hv : utf8ValidString name = true) :
    (appendString name).head? = some 0x22 ∧
    readStringBody (.text none) (appendString name).tail = some (name, []) :=
  ⟨rfl, readStringBody_appendStringLoop name.length name [] hv⟩

/-! ## The façade operations -/

/-- C1: every façade operation makes exactly one collaborator call, on the façade's handle for
that service, and returns the error of that call; the trace grows by that one call. Marshalling
the record or the object never returns an error, so the two operations that marshal reach
their client as well. -/
theorem wrappers_call_once_and_return_the_error (β : Behaviour) (a : AWSWrapper)
    (ctx : Context) (trace : List Call) :
    (∀ record : Option KinesisRecord, ∃ input,
      PutKinesisRecordWrapper β a ctx record trace
        = (β trace (.PutRecord ctx a.kinesisClient input),
           trace ++ [.PutRecord ctx a.kinesisClient input])) ∧
    (∀ streamName : GoString, ∃ input,
      ListShardsWrapper β a ctx streamName trace
        = (β trace (.ListShards ctx a.kinesisClient input),
           trace ++ [.ListShards ctx a.kinesisClient input])) ∧
    (∀ key : GoString, ∃ input,
      GetItemWrapper β a ctx key trace
        = (β trace (.GetItem ctx a.dynamodbClient input),
           trace ++ [.GetItem ctx a.dynamodbClient input])) ∧
    (∀ key pfx : GoString, ∃ input,
      QueryTableWrapper β a ctx key pfx trace
        = (β trace (.Query ctx a.dynamodbClient input),
           trace ++ [.Query ctx a.dynamodbClient input])) ∧
    (∀ (key : GoString) (obj : Option S3Object), ∃ input,
      PutObjectWrapper β a ctx key obj trace
        = (β trace (.PutObject ctx a.s3client input),
           trace ++ [.PutObject ctx a.s3client input])) ∧
    (∃ input,
      ReceiveMessageWrapper β a ctx trace
        = (β trace (.ReceiveMessage ctx a.sqs input),
           trace ++ [.ReceiveMessage ctx a.sqs input])) ∧
    (∃ input,
      PublishMessageWrapper β a ctx trace
        = (β trace (.Publish ctx a.sns input), trace ++ [.Publish ctx a.sns input])) ∧
    (∀ record : Option KinesisRecord, (jsonMarshal (KinesisRecord.reflect record)).2 = none) ∧
    (∀ obj : Option S3Object, (jsonMarshal (S3Object.reflect obj)).2 = none) := by
  refine ⟨fun record => ⟨_, PutKinesisRecordWrapper_eq β a ctx record trace⟩,
    fun _ => ⟨_, rfl⟩, fun _ => ⟨_, rfl⟩, fun _ _ => ⟨_, rfl⟩,
    fun key obj => ⟨_, PutObjectWrapper_eq β a ctx key obj trace⟩, ⟨_, rfl⟩, ⟨_, rfl⟩,
    jsonMarshal_KinesisRecord_error, jsonMarshal_S3Object_error⟩

/-- C2: the request handed to the Kinesis client has partition key "1" and the façade's stream
name, whatever the record; for a façade made by `New` that is the stream name given to `New`. -/
theorem PutKinesisRecordWrapper_partition_key_and_stream (β : Behaviour) (a : AWSWrapper)
    (ctx : Context) (record : Option KinesisRecord) (trace : List Call) :
    (∃ input, (PutKinesisRecordWrapper β a ctx record trace).2
        = trace ++ [.PutRecord ctx a.kinesisClient input] ∧
      input.PartitionKey = some (goString "1") ∧
      input.StreamName = a.kinesisStreamName) ∧
    (∀ (conf : Config) (ctx0 : Context) (streamName tableName bucketName queueUrl : GoString),
      ∃ made input, (New (fun _ => (conf, none)) ctx0 streamName tableName bucketName queueUrl).1
          = some made ∧
        (PutKinesisRecordWrapper β made ctx record trace).2
          = trace ++ [.PutRecord ctx made.kinesisClient input] ∧
        input.PartitionKey = some (goString "1") ∧
        input.StreamName = some streamName) := by
  refine ⟨⟨_, by rw [PutKinesisRecordWrapper_eq]; rfl, rfl, rfl⟩, ?_⟩
  intro conf ctx0 streamName tableName bucketName queueUrl
  exact ⟨_, _, rfl, by rw [PutKinesisRecordWrapper_eq]; rfl, rfl, rfl⟩

/-- C5: the request handed to the DynamoDB client names the index "GSI1" on the façade's table,
with a consistent read and total consumed capacity, whatever the key and the sort-key start;
for a façade made by `New` the table is the one given to `New`. -/
theorem QueryTableWrapper_fixed_settings (β : Behaviour) (a : AWSWrapper) (ctx : Context)
    (key pfx : GoString) (trace : List Call) :
    (∃ input, (QueryTableWrapper β a ctx key pfx trace).2
        = trace ++ [.Query ctx a.dynamodbClient input] ∧
      input.IndexName = some (goString "GSI1") ∧
      input.TableName = some a.dynamodbTableName ∧
      input.ConsistentRead = some true ∧
      input.ReturnConsumedCapacity = dyntypes.ReturnConsumedCapacityTotal ∧
      dyntypes.ReturnConsumedCapacityTotal = goString "TOTAL") ∧
    (∀ (conf : Config) (ctx0 : Context) (streamName tableName bucketName queueUrl : GoString),
      ∃ made input, (New (fun _ => (conf, none)) ctx0 streamName tableName bucketName queueUrl).1
          = some made ∧
        (QueryTableWrapper β made ctx key pfx trace).2
          = trace ++ [.Query ctx made.dynamodbClient input] ∧
        input.TableName = some tableName) := by
  refine ⟨⟨_, rfl, rfl, rfl, rfl, rfl, rfl⟩, ?_⟩
  intro conf ctx0 streamName tableName bucketName queueUrl
  exact ⟨_, _, rfl, rfl, rfl⟩

/-- C6: the request handed to the SQS client asks for at most 10 messages, a visibility timeout
of 20, a wait of 30, the message attributes "ID" and "COUNTRY", all system attributes, on the
façade's queue; for a façade made by `New` the queue is the one given to `New`. -/
theorem ReceiveMessageWrapper_request (β : Behaviour) (a : AWSWrapper) (ctx : Context)
    (trace : List Call) :
    (∃ input, (ReceiveMessageWrapper β a ctx trace).2
        = trace ++ [.ReceiveMessage ctx a.sqs input] ∧
      input.MaxNumberOfMessages = 10 ∧
      input.VisibilityTimeout = 20 ∧
      input.WaitTimeSeconds = 30 ∧
      input.MessageAttributeNames = [goString "ID", goString "COUNTRY"] ∧
      input.AttributeNames = [sqstypes.QueueAttributeNameAll] ∧
      sqstypes.QueueAttributeNameAll = goString "All" ∧
      input.QueueUrl = a.queueUrl) ∧
    (∀ (conf : Config) (ctx0 : Context) (streamName tableName bucketName queueUrl : GoString),
      ∃ made input, (New (fun _ => (conf, none)) ctx0 streamName tableName bucketName queueUrl).1
          = some made ∧
        (ReceiveMessageWrapper β made ctx trace).2
          = trace ++ [.ReceiveMessage ctx made.sqs input] ∧
        input.QueueUrl = some queueUrl) := by
  refine ⟨⟨_, rfl, rfl, rfl, rfl, rfl, rfl, rfl, rfl⟩, ?_⟩
  intro conf ctx0 streamName tableName bucketName queueUrl
  exact ⟨_, _, rfl, rfl, rfl⟩

/-- C7: `New` returns a nil error exactly when configuration discovery does; when discovery
fails it returns that error and a nil façade; when discovery succeeds it returns a façade
holding the four strings it was given and five non-nil client handles. -/
theorem New_succeeds_iff_discovery (LoadDefaultConfig : Context → Config × Option GoError)
    (ctx : Context) (streamName tableName bucketName queueUrl : GoString) :
    ((New LoadDefaultConfig ctx streamName tableName bucketName queueUrl).2 = none ↔
      (LoadDefaultConfig ctx).2 = none) ∧
    (∀ err, (LoadDefaultConfig ctx).2 = some err →
      New LoadDefaultConfig ctx streamName tableName bucketName queueUrl = (none, some err)) ∧
    ((LoadDefaultConfig ctx).2 = none →
      ∃ made, New LoadDefaultConfig ctx streamName tableName bucketName queueUrl
          = (some made, none) ∧
        made.kinesisStreamName = some streamName ∧
        made.dynamodbTableName = tableName ∧
        made.bucketName = some bucketName ∧
        made.queueUrl = some queueUrl ∧
        made.kinesisClient ≠ none ∧
        made.dynamodbClient ≠ none ∧
        made.s3client ≠ none ∧
        made.sqs ≠ none ∧
        made.sns ≠ none) := by
  rcases h : LoadDefaultConfig ctx with ⟨conf, _ | err⟩
  · refine ⟨by simp [New, h], by simp, fun _ => ⟨_, by simp [New, h]; rfl, ?_⟩⟩
    simp [aws.String, kinesis.NewFromConfig, dynamodb.NewFromConfig, s3.NewFromConfig,
      sqs.NewFromConfig, sns.NewFromConfig]
  · refine ⟨by simp [New, h], ?_, by simp⟩
    intro e he
    simp only [Option.some.injEq] at he
    subst he
    simp [New, h]

/-- C7 at the scenario of the spec: discovery succeeds with the configuration numbered 1, and
fails with error 3. -/
theorem New_succeeds_iff_discovery_witness :
    (∃ made, New (fun _ => (⟨1⟩, none)) Context.Background (goString "S") (goString "T")
          (goString "B") (goString "Q") = (some made, none) ∧
        made.kinesisStreamName = some (goString "S") ∧
        made.dynamodbTableName = goString "T" ∧
        made.bucketName = some (goString "B") ∧
        made.queueUrl = some (goString "Q") ∧
        made.kinesisClient ≠ none ∧
        made.dynamodbClient ≠ none ∧
        made.s3client ≠ none ∧
        made.sqs ≠ none ∧
        made.sns ≠ none) ∧
    New (fun _ => (⟨0⟩, some (.collaborator 3))) Context.Background (goString "S")
      (goString "T") (goString "B") (goString "Q") = (none, some (.collaborator 3)) :=
  ⟨(New_succeeds_iff_discovery (fun _ => (⟨1⟩, none)) Context.Background (goString "S")
      (goString "T") (goString "B") (goString "Q")).2.2 rfl,
   (New_succeeds_iff_discovery (fun _ => (⟨0⟩, some (.collaborator 3))) Context.Background
      (goString "S") (goString "T") (goString "B") (goString "Q")).2.1 _ rfl⟩

/-- C8, as stated, fails: for an object whose name is the single byte 0xFF the member `name`
of the body holds U+FFFD and not the name. -/
theorem PutObjectWrapper_body_replaces_invalid_utf8 :
    ∃ input body, (PutObjectWrapper quietBehaviour scenarioWrapper Context.Background
        (goString "s3_file.json") (some { Name := [0xFF] }) []).2
        = [.PutObject Context.Background scenarioWrapper.s3client input] ∧
      input.Bucket = some (goString "B") ∧
      input.Key = some (goString "s3_file.json") ∧
      input.Body = some body ∧
      body ≠ goString "\x7b\"name\":" ++ [0x22, 0xFF, 0x22] ++ goString "\x7d" ∧
      readName body = some [0xEF, 0xBF, 0xBD] ∧
      readName body ≠ some [0xFF] := by
  refine ⟨_, _, by rw [PutObjectWrapper_eq]; rfl, rfl, rfl, rfl, ?_, ?_, ?_⟩ <;> decide

/-- C8, amended: for every object whose name is well-formed UTF-8, empty or not, the request
handed to the S3 client has the façade's bucket, the key given, and as body the object with
the single member `name` whose value is a JSON string that reads back as the name. For every
name at all, the bucket and the key are those, and every field other than the three keeps its
zero value, as `createS3PutObjectInput` sets only the three. For a façade made by `New` the
bucket is the one given to `New`. -/
theorem PutObjectWrapper_request (β : Behaviour) (a : AWSWrapper) (ctx : Context)
    (key : GoString) (o : S3Object) (trace : List Call)
    (hv : utf8ValidString o.Name = true) :
    (∃ input, (PutObjectWrapper β a ctx key (some o) trace).2
        = trace ++ [.PutObject ctx a.s3client input] ∧
      input.Bucket = a.bucketName ∧
      input.Key = some key ∧
      input.Body = some (goString "\x7b\"name\":" ++ appendString o.Name ++ goString "\x7d") ∧
      input = { Bucket := input.Bucket, Key := input.Key, Body := input.Body }) ∧
    (appendString o.Name).head? = some 0x22 ∧
    readStringBody (.text none) (appendString o.Name).tail = some (o.Name, []) ∧
    readName (goString "\x7b\"name\":" ++ appendString o.Name ++ goString "\x7d")
      = some o.Name ∧
    (∃ input, (PutObjectWrapper β a ctx key (some { Name := [] }) trace).2
        = trace ++ [.PutObject ctx a.s3client input] ∧
      input.Body = some (goString "\x7b\"name\":\"\"\x7d")) ∧
    (∃ input, (PutObjectWrapper β a ctx key (some { Name := goString "Object Name" }) trace).2
        = trace ++ [.PutObject ctx a.s3client input] ∧
      input.Body = some (goString "\x7b\"name\":\"Object Name\"\x7d")) ∧
    (∀ (bucket : Option GoString) (k : GoString) (body : Option (List Nat)),
      createS3PutObjectInput bucket k body = { Bucket := bucket, Key := some k, Body := body }) ∧
    (∀ any : S3Object, ∃ input body, (PutObjectWrapper β a ctx key (some any) trace).2
        = trace ++ [.PutObject ctx a.s3client input] ∧
      input = { Bucket := a.bucketName, Key := some key, Body := some body }) ∧
    (∀ (any : S3Object) (conf : Config) (ctx0 : Context)
        (streamName tableName bucketName queueUrl : GoString),
      ∃ made input, (New (fun _ => (conf, none)) ctx0 streamName tableName bucketName queueUrl).1
          = some made ∧
        (PutObjectWrapper β made ctx key (some any) trace).2
          = trace ++ [.PutObject ctx made.s3client input] ∧
        input.Bucket = some bucketName) := by
  refine ⟨⟨_, by rw [PutObjectWrapper_eq]; rfl, rfl, rfl, ?_, rfl⟩,
    (appendString_reads_back o.Name hv).1, (appendString_reads_back o.Name hv).2,
    readName_object o.Name hv,
    ⟨_, by rw [PutObjectWrapper_eq]; rfl, ?_⟩,
    ⟨_, by rw [PutObjectWrapper_eq]; rfl, ?_⟩, fun _ _ _ => rfl, ?_, ?_⟩
  · rw [jsonMarshal_S3Object]
    rfl
  · rw [jsonMarshal_S3Object]
    exact congrArg some
      (by decide : goString "\x7b\"name\":" ++ appendString [] ++ goString "\x7d"
        = goString "\x7b\"name\":\"\"\x7d")
  · rw [jsonMarshal_S3Object]
    exact congrArg some
      (by decide : goString "\x7b\"name\":" ++ appendString (goString "Object Name")
          ++ goString "\x7d" = goString "\x7b\"name\":\"Object Name\"\x7d")
  · intro any
    exact ⟨_, _, by rw [PutObjectWrapper_eq]; rfl, rfl⟩
  · intro any conf ctx0 streamName tableName bucketName queueUrl
    exact ⟨_, _, rfl, by rw [PutObjectWrapper_eq]; rfl, rfl⟩

/-- C8 at an object whose name has a quote, a line feed, an HTML character and a two-byte
character: the body with its escapes, and the name read back from it. -/
theorem PutObjectWrapper_request_witness :
    utf8ValidString (goString "a\"b\n<é") = true ∧
    (∃ input, (PutObjectWrapper quietBehaviour scenarioWrapper Context.Background
        (goString "s3_file.json") (some { Name := goString "a\"b\n<é" }) []).2
        = [] ++ [.PutObject Context.Background scenarioWrapper.s3client input] ∧
      input.Bucket = scenarioWrapper.bucketName ∧
      input.Key = some (goString "s3_file.json") ∧
      input.Body = some (goString "\x7b\"name\":" ++ appendString (goString "a\"b\n<é")
        ++ goString "\x7d") ∧
      input = { Bucket := input.Bucket, Key := input.Key, Body := input.Body }) ∧
    goString "\x7b\"name\":" ++ appendString (goString "a\"b\n<é") ++ goString "\x7d"
      = goString "\x7b\"name\":\"a\\\"b\\n\\u003cé\"\x7d" ∧
    readName (goString "\x7b\"name\":\"a\\\"b\\n\\u003cé\"\x7d") = some (goString "a\"b\n<é") :=
  ⟨by decide,
    (PutObjectWrapper_request quietBehaviour scenarioWrapper Context.Background
      (goString "s3_file.json") { Name := goString "a\"b\n<é" } [] (by decide)).1,
    by decide, by decide⟩

/-- C10, the code at the driver's query: the key condition and the values are as claimed, but
the expression holds no `#`, no key of ExpressionAttributeNames is a placeholder, and the name
`pk` of the expression denotes the attribute `pk`, not the entry "SK" of the map. -/
theorem QueryTableWrapper_names_not_substituted (β : Behaviour) (a : AWSWrapper)
    (ctx : Context) (key pfx : GoString) (trace : List Call) :
    ∃ input expr, (QueryTableWrapper β a ctx key pfx trace).2
        = trace ++ [.Query ctx a.dynamodbClient input] ∧
      input.KeyConditionExpression = some expr ∧
      expr = goString "pk = :pk AND begins_with(sk, :sk)" ∧
      input.ExpressionAttributeValues
        = [(goString ":pk", .AttributeValueMemberS key),
           (goString ":sk", .AttributeValueMemberS pfx)] ∧
      input.ExpressionAttributeNames
        = [(goString "pk", goString "SK"), (goString "sk", goString "GSI1SK")] ∧
      0x23 ∉ expr ∧
      input.ExpressionAttributeNames.all (fun entry => !isNamePlaceholder entry.1) = true ∧
      resolveAttributeName input.ExpressionAttributeNames (goString "pk") = goString "pk" ∧
      resolveAttributeName input.ExpressionAttributeNames (goString "sk") = goString "sk" ∧
      input.ExpressionAttributeNames.lookup (goString "pk") = some (goString "SK") ∧
      goString "pk" ≠ goString "SK" := by
  refine ⟨_, _, rfl, rfl, rfl, rfl, rfl, by decide, ?_, ?_, ?_, ?_, by decide⟩
  · exact (by decide : [(goString "pk", goString "SK"), (goString "sk", goString "GSI1SK")].all
      (fun entry => !isNamePlaceholder entry.1) = true)
  · exact (by decide : resolveAttributeName
      [(goString "pk", goString "SK"), (goString "sk", goString "GSI1SK")] (goString "pk")
        = goString "pk")
  · exact (by decide : resolveAttributeName
      [(goString "pk", goString "SK"), (goString "sk", goString "GSI1SK")] (goString "sk")
        = goString "sk")
  · exact (by decide : [(goString "pk", goString "SK"), (goString "sk", goString "GSI1SK")].lookup
      (goString "pk") = some (goString "SK"))

/-! ## The payloads -/

/-- C3, as stated, fails: for the record with the empty name the Data bytes are the empty
object, which has no member `name`; and for the record whose name is the single byte 0xFF the
member holds U+FFFD and not the name. -/
theorem PutKinesisRecordWrapper_empty_name_omitted :
    (∃ input, (PutKinesisRecordWrapper quietBehaviour scenarioWrapper Context.Background
        (some { Name := [] }) []).2
        = [.PutRecord Context.Background scenarioWrapper.kinesisClient input] ∧
      input.Data = goString "\x7b\x7d" ∧
      input.Data ≠ goString "\x7b\"name\":" ++ appendString [] ++ goString "\x7d") ∧
    (∃ input, (PutKinesisRecordWrapper quietBehaviour scenarioWrapper Context.Background
        (some { Name := [0xFF] }) []).2
        = [.PutRecord Context.Background scenarioWrapper.kinesisClient input] ∧
      input.Data ≠ goString "\x7b\"name\":" ++ [0x22, 0xFF, 0x22] ++ goString "\x7d" ∧
      readName input.Data = some [0xEF, 0xBF, 0xBD] ∧
      readName input.Data ≠ some [0xFF]) := by
  refine ⟨⟨_, by rw [PutKinesisRecordWrapper_eq]; rfl, ?_, ?_⟩,
    ⟨_, by rw [PutKinesisRecordWrapper_eq]; rfl, ?_, ?_, ?_⟩⟩ <;> decide

/-- C3, amended: for every record whose name is non-empty and well-formed UTF-8 the Data bytes
are the object with the single member `name` whose value is a JSON string that reads back as
the name; for every façade the record with the empty name is sent as the empty object; and
for the driver's record the bytes are exactly those of the scenario. -/
theorem PutKinesisRecordWrapper_data (β : Behaviour) (a : AWSWrapper) (ctx : Context)
    (r : KinesisRecord) (trace : List Call) (h : r.Name ≠ [])
    (hv : utf8ValidString r.Name = true) :
    (PutKinesisRecordWrapper β a ctx (some r) trace).2
        = trace ++ [.PutRecord ctx a.kinesisClient
            { Data := goString "\x7b\"name\":" ++ appendString r.Name ++ goString "\x7d"
              PartitionKey := some (goString "1")
              StreamName := a.kinesisStreamName }] ∧
    (appendString r.Name).head? = some 0x22 ∧
    readStringBody (.text none) (appendString r.Name).tail = some (r.Name, []) ∧
    readName (goString "\x7b\"name\":" ++ appendString r.Name ++ goString "\x7d")
      = some r.Name ∧
    (PutKinesisRecordWrapper β a ctx (some { Name := [] }) trace).2
        = trace ++ [.PutRecord ctx a.kinesisClient
            { Data := goString "\x7b\x7d"
              PartitionKey := some (goString "1")
              StreamName := a.kinesisStreamName }] ∧
    (PutKinesisRecordWrapper β a ctx (some { Name := goString "Record Name" }) trace).2
        = trace ++ [.PutRecord ctx a.kinesisClient
            { Data := goString "\x7b\"name\":\"Record Name\"\x7d"
              PartitionKey := some (goString "1")
              StreamName := a.kinesisStreamName }] := by
  refine ⟨?_, (appendString_reads_back r.Name hv).1, (appendString_reads_back r.Name hv).2,
    readName_object r.Name hv, ?_, ?_⟩
  · rw [PutKinesisRecordWrapper_eq, jsonMarshal_KinesisRecord, if_neg h]
    rfl
  · rw [PutKinesisRecordWrapper_eq, jsonMarshal_KinesisRecord,
      if_pos (show ({ Name := [] } : KinesisRecord).Name = [] from rfl)]
    rfl
  · rw [PutKinesisRecordWrapper_eq, jsonMarshal_KinesisRecord,
      if_neg (show ({ Name := goString "Record Name" } : KinesisRecord).Name ≠ [] by decide),
      show goString "\x7b\"name\":"
          ++ appendString ({ Name := goString "Record Name" } : KinesisRecord).Name
          ++ goString "\x7d" = goString "\x7b\"name\":\"Record Name\"\x7d" by decide]
    rfl

/-- C3 at a record whose name has a quote, a line feed, an HTML character and a two-byte
character: the Data bytes with their escapes, and the name read back from them. -/
theorem PutKinesisRecordWrapper_data_witness :
    ({ Name := goString "a\"b\n<é" } : KinesisRecord).Name ≠ [] ∧
    utf8ValidString ({ Name := goString "a\"b\n<é" } : KinesisRecord).Name = true ∧
    (PutKinesisRecordWrapper quietBehaviour scenarioWrapper Context.Background
        (some { Name := goString "a\"b\n<é" }) []).2
        = [] ++ [.PutRecord Context.Background scenarioWrapper.kinesisClient
            { Data := goString "\x7b\"name\":" ++ appendString (goString "a\"b\n<é")
                ++ goString "\x7d"
              PartitionKey := some (goString "1")
              StreamName := scenarioWrapper.kinesisStreamName }] ∧
    goString "\x7b\"name\":" ++ appendString (goString "a\"b\n<é") ++ goString "\x7d"
      = goString "\x7b\"name\":\"a\\\"b\\n\\u003cé\"\x7d" ∧
    readName (goString "\x7b\"name\":\"a\\\"b\\n\\u003cé\"\x7d") = some (goString "a\"b\n<é") :=
  ⟨by decide, by decide,
    (PutKinesisRecordWrapper_data quietBehaviour scenarioWrapper Context.Background
      { Name := goString "a\"b\n<é" } [] (by decide) (by decide)).1,
    by decide, by decide⟩

/-- C4, as stated, fails: a name that is the single byte 0xFF is written as U+FFFD, and the
reader gets the three bytes of U+FFFD back, for both payloads. -/
theorem roundtrip_fails_on_invalid_utf8 :
    (∃ input, (PutKinesisRecordWrapper quietBehaviour scenarioWrapper Context.Background
        (some { Name := [0xFF] }) []).2
        = [.PutRecord Context.Background scenarioWrapper.kinesisClient input] ∧
      readName input.Data = some [0xEF, 0xBF, 0xBD] ∧ readName input.Data ≠ some [0xFF]) ∧
    (∃ input body, (PutObjectWrapper quietBehaviour scenarioWrapper Context.Background
        (goString "k") (some { Name := [0xFF] }) []).2
        = [.PutObject Context.Background scenarioWrapper.s3client input] ∧
      input.Body = some body ∧
      readName body = some [0xEF, 0xBF, 0xBD] ∧ readName body ≠ some [0xFF]) := by
  refine ⟨⟨_, by rw [PutKinesisRecordWrapper_eq]; rfl, ?_, ?_⟩,
    ⟨_, _, by rw [PutObjectWrapper_eq]; rfl, rfl, ?_, ?_⟩⟩ <;> decide

/-- C4, amended: for every name that is well-formed UTF-8 the reader gets the name back from
the bytes sent for the record and from the bytes sent for the object. -/
theorem roundtrip_name (β : Behaviour) (a : AWSWrapper) (ctx : Context) (key : GoString)
    (name : GoString) (trace : List Call) (h : utf8ValidString name = true) :
    (∃ input, (PutKinesisRecordWrapper β a ctx (some { Name := name }) trace).2
        = trace ++ [.PutRecord ctx a.kinesisClient input] ∧
      readName input.Data = some name) ∧
    (∃ input body, (PutObjectWrapper β a ctx key (some { Name := name }) trace).2
        = trace ++ [.PutObject ctx a.s3client input] ∧
      input.Body = some body ∧ readName body = some name) := by
  constructor
  · refine ⟨_, by rw [PutKinesisRecordWrapper_eq]; rfl, ?_⟩
    rw [jsonMarshal_KinesisRecord]
    by_cases hn : name = []
    · subst hn
      exact (by decide : readName (goString "\x7b\x7d") = some [])
    · simp only [hn, if_false]
      exact readName_object name h
  · refine ⟨_, _, by rw [PutObjectWrapper_eq]; rfl, rfl, ?_⟩
    rw [jsonMarshal_S3Object]
    exact readName_object name h

/-- The amended C4 at a name with a quote, a backslash, a line feed, an HTML character, a
two-byte character, U+2028 and a four-byte character. -/
theorem roundtrip_name_witness :
    utf8ValidString (goString "a\"\\\n<é\u2028😀") = true ∧
    (∃ input, (PutKinesisRecordWrapper quietBehaviour scenarioWrapper Context.Background
        (some { Name := goString "a\"\\\n<é\u2028😀" }) []).2
        = [] ++ [.PutRecord Context.Background scenarioWrapper.kinesisClient input] ∧
      readName input.Data = some (goString "a\"\\\n<é\u2028😀")) ∧
    (∃ input body, (PutObjectWrapper quietBehaviour scenarioWrapper Context.Background
        (goString "k") (some { Name := goString "a\"\\\n<é\u2028😀" }) []).2
        = [] ++ [.PutObject Context.Background scenarioWrapper.s3client input] ∧
      input.Body = some body ∧ readName body = some (goString "a\"\\\n<é\u2028😀")) :=
  ⟨by decide, roundtrip_name quietBehaviour scenarioWrapper Context.Background (goString "k")
    (goString "a\"\\\n<é\u2028😀") [] (by decide)⟩

/-! ## The driver -/

/-- C9: the calls a run makes are a beginning of the fixed order of operations; a call that
returns an error is the last one made; and a run stops before the seventh operation only when
construction failed, with no call made, or when its last call returned an error. -/
theorem main_stops_at_first_error (w : Surroundings) :
    (main w).map Call.operation <+: driverOrder ∧
    (∀ (k : Nat) (c : Call), (main w)[k]? = some c →
      w.behaviour ((main w).take k) c ≠ none → k + 1 = (main w).length) ∧
    ((w.LoadDefaultConfig Context.Background).2 ≠ none → main w = []) ∧
    ((w.LoadDefaultConfig Context.Background).2 = none →
      (main w).map Call.operation = driverOrder ∨
      ∃ c err, (main w).getLast? = some c ∧
        w.behaviour (main w).dropLast c = some err) := by
  obtain ⟨getenv, ldc, β⟩ := w
  simp only [main, New, PutKinesisRecordWrapper_eq, PutObjectWrapper_eq, ListShardsWrapper,
    GetItemWrapper, QueryTableWrapper, ReceiveMessageWrapper, PublishMessageWrapper]
  rcases hl : ldc Context.Background with ⟨conf, _ | err⟩
  · simp only [invoke, List.nil_append, List.cons_append]
    generalize hc1 : Call.PutRecord _ _ _ = c1
    generalize hc2 : Call.ListShards _ _ _ = c2
    generalize hc3 : Call.GetItem _ _ _ = c3
    generalize hc4 : Call.Query _ _ _ = c4
    generalize hc5 : Call.PutObject _ _ _ = c5
    generalize hc6 : Call.ReceiveMessage _ _ _ = c6
    generalize hc7 : Call.Publish _ _ _ = c7
    have o1 : c1.operation = .PutRecord := by rw [← hc1]; rfl
    have o2 : c2.operation = .ListShards := by rw [← hc2]; rfl
    have o3 : c3.operation = .GetItem := by rw [← hc3]; rfl
    have o4 : c4.operation = .QueryTable := by rw [← hc4]; rfl
    have o5 : c5.operation = .PutObject := by rw [← hc5]; rfl
    have o6 : c6.operation = .ReceiveMessage := by rw [← hc6]; rfl
    have o7 : c7.operation = .PublishMessage := by rw [← hc7]; rfl
    clear hc1 hc2 hc3 hc4 hc5 hc6 hc7
    rcases e1 : β [] c1 with _ | r1
    swap
    · simp only [e1, List.cons_append, List.nil_append]
      refine ⟨by simp [o1, driverOrder], ?_, by simp, fun _ => Or.inr ⟨c1, r1, rfl, e1⟩⟩
      intro k c hk hne
      rcases k with _ | k <;> simp_all
    rcases e2 : β [c1] c2 with _ | r2
    swap
    · simp only [e1, e2, List.cons_append, List.nil_append]
      refine ⟨by simp [o1, o2, driverOrder], ?_, by simp, fun _ => Or.inr ⟨c2, r2, rfl, e2⟩⟩
      intro k c hk hne
      rcases k with _ | _ | k <;> simp_all
    rcases e3 : β [c1, c2] c3 with _ | r3
    swap
    · simp only [e1, e2, e3, List.cons_append, List.nil_append]
      refine ⟨by simp [o1, o2, o3, driverOrder], ?_, by simp, fun _ => Or.inr ⟨c3, r3, rfl, e3⟩⟩
      intro k c hk hne
      rcases k with _ | _ | _ | k <;> simp_all
    rcases e4 : β [c1, c2, c3] c4 with _ | r4
    swap
    · simp only [e1, e2, e3, e4, List.cons_append, List.nil_append]
      refine ⟨by simp [o1, o2, o3, o4, driverOrder], ?_, by simp, fun _ => Or.inr ⟨c4, r4, rfl, e4⟩⟩
      intro k c hk hne
      rcases k with _ | _ | _ | _ | k <;> simp_all
    rcases e5 : β [c1, c2, c3, c4] c5 with _ | r5
    swap
    · simp only [e1, e2, e3, e4, e5, List.cons_append, List.nil_append]
      refine ⟨by simp [o1, o2, o3, o4, o5, driverOrder], ?_, by simp, fun _ => Or.inr ⟨c5, r5, rfl, e5⟩⟩
      intro k c hk hne
      rcases k with _ | _ | _ | _ | _ | k <;> simp_all
    rcases e6 : β [c1, c2, c3, c4, c5] c6 with _ | r6
    swap
    · simp only [e1, e2, e3, e4, e5, e6, List.cons_append, List.nil_append]
      refine ⟨by simp [o1, o2, o3, o4, o5, o6, driverOrder], ?_, by simp, fun _ => Or.inr ⟨c6, r6, rfl, e6⟩⟩
      intro k c hk hne
      rcases k with _ | _ | _ | _ | _ | _ | k <;> simp_all
    rcases e7 : β [c1, c2, c3, c4, c5, c6] c7 with _ | r7
    swap
    · simp only [e1, e2, e3, e4, e5, e6, e7, List.cons_append, List.nil_append]
      refine ⟨by simp [o1, o2, o3, o4, o5, o6, o7, driverOrder], ?_, by simp, fun _ => Or.inr ⟨c7, r7, rfl, e7⟩⟩
      intro k c hk hne
      rcases k with _ | _ | _ | _ | _ | _ | _ | k <;> simp_all
    simp only [e1, e2, e3, e4, e5, e6, e7, List.cons_append, List.nil_append]
    refine ⟨by simp [o1, o2, o3, o4, o5, o6, o7, driverOrder], ?_, by simp,
      fun _ => Or.inl (by simp [o1, o2, o3, o4, o5, o6, o7, driverOrder])⟩
    intro k c hk hne
    rcases k with _ | _ | _ | _ | _ | _ | _ | k <;> simp_all
  · simp [driverOrder]

/-- C9 at a run in which `GetItem` fails: three operations are invoked, the last one returned
the error, and nothing follows it. -/
theorem main_stops_at_first_error_witness :
    (getItemFailsRun.LoadDefaultConfig Context.Background).2 = none ∧
    (main getItemFailsRun).map Call.operation = [.PutRecord, .ListShards, .GetItem] ∧
    ((main getItemFailsRun).map Call.operation = driverOrder ∨
      ∃ c err, (main getItemFailsRun).getLast? = some c ∧
        getItemFailsRun.behaviour (main getItemFailsRun).dropLast c = some err) :=
  ⟨rfl, by decide, (main_stops_at_first_error getItemFailsRun).2.2.2 rfl⟩

end AwsJob
